import Mathlib

/-!
Verification of the `BetterCurve` parametric curve engine
(`src/curvature.cpp`, `src/curvature.h`).

The C++ code is shallowly embedded: `real_t` becomes `ℚ` (exact
arithmetic), `Vector<Point>` becomes `List Point`, `Variant` becomes an
inductive datatype, and each member function becomes a pure function from
the relevant state to the new state.  Constants follow the source:
`MIN_X = 0`, `MAX_X = 1`, `CMP_EPSILON = 1e-5` (Godot's value),
`MIN_Y_RANGE = 0.01`, default `bake_resolution = 100`.
-/

namespace BetterCurve

/-- Tangent mode of one side of a control point (curvature.h, enum TangentMode). -/
inductive TangentMode where
  | TANGENT_FREE
  | TANGENT_LINEAR
deriving DecidableEq, Repr

/-- Integer value of a TangentMode, as used by get_data/set_data. -/
def TangentMode.toInt : TangentMode → Int
  | .TANGENT_FREE => 0
  | .TANGENT_LINEAR => 1

/-- TANGENT_MODE_COUNT from the enum in curvature.h. -/
def TANGENT_MODE_COUNT : Int := 2

/-- A control point (curvature.h, struct Point).  `position` is a Vector2
modelled as a pair (x, y) of rationals. -/
structure Point where
  position : ℚ × ℚ
  left_tangent : ℚ := 0
  right_tangent : ℚ := 0
  left_mode : TangentMode := .TANGENT_FREE
  right_mode : TangentMode := .TANGENT_FREE
deriving DecidableEq, Repr

instance : Inhabited Point := ⟨{ position := (0, 0) }⟩

/-- MIN_X constant (curvature.h). -/
def MIN_X : ℚ := 0

/-- MAX_X constant (curvature.h). -/
def MAX_X : ℚ := 1

/-- Godot's CMP_EPSILON, used by clean_dupes and Math::is_zero_approx. -/
def CMP_EPSILON : ℚ := 1 / 100000

/-- The x coordinate of the point at index i (0 when out of range). -/
def px (pts : List Point) (i : ℕ) : ℚ := (pts.getD i default).position.1

/-- The y coordinate of the point at index i (0 when out of range). -/
def py (pts : List Point) (i : ℕ) : ℚ := (pts.getD i default).position.2

/-- The binary-search loop of BetterCurve::get_index (curvature.cpp lines
113-131), written as a recursive function on the pair of cursors.  The
loop body is translated verbatim: `m = (imin + imax) / 2`, move `imin`
up when both segment ends are left of the offset, move `imax` down when
the left end is right of the offset, and otherwise return `m`. -/
def get_index_loop (pts : List Point) (p_offset : ℚ) (imin imax : ℕ) : ℕ :=
  if _h : 1 < imax - imin then
    let m := (imin + imax) / 2
    let a := px pts m
    let b := px pts (m + 1)
    if a < p_offset ∧ b < p_offset then
      get_index_loop pts p_offset m imax
    else if a > p_offset then
      get_index_loop pts p_offset imin m
    else
      m
  else
    if p_offset > px pts imax then imax else imin
termination_by imax - imin
decreasing_by
· omega
· omega

/-- BetterCurve::get_index (curvature.cpp lines 110-138): lower-bound
style float binary search over the point store. -/
def get_index (pts : List Point) (p_offset : ℚ) : ℕ :=
  get_index_loop pts p_offset 0 (pts.length - 1)

/-- The scan of BetterCurve::clean_dupes (curvature.cpp lines 145-152):
`prev` is the element at index i-1 after the removals so far; element i
is removed when `prev.position.x - cur.position.x <= CMP_EPSILON`
(note the subtraction order of the source), in which case `prev` stays
the comparison anchor for the next element. -/
def clean_scan (prev : Point) : List Point → List Point
  | [] => []
  | c :: rest =>
    if prev.position.1 - c.position.1 ≤ CMP_EPSILON then
      clean_scan prev rest
    else
      c :: clean_scan c rest

/-- BetterCurve::clean_dupes (curvature.cpp lines 140-158): the loop starts
at i = 1, so the first point is always kept. -/
def clean_dupes : List Point → List Point
  | [] => []
  | p :: rest => p :: clean_scan p rest

/-- BetterCurve::set_point_left_tangent (curvature.cpp lines 160-169):
stores the tangent and forces left_mode to TANGENT_FREE; an out-of-range
index fails the ERR_FAIL_INDEX check and leaves the store unchanged. -/
def set_point_left_tangent (pts : List Point) (p_index : ℕ) (p_tangent : ℚ) :
    List Point :=
  if p_index < pts.length then
    pts.set p_index
      { pts.getD p_index default with
        left_tangent := p_tangent, left_mode := .TANGENT_FREE }
  else pts

/-- BetterCurve::set_point_right_tangent (curvature.cpp lines 171-180):
stores the tangent and forces right_mode to TANGENT_FREE. -/
def set_point_right_tangent (pts : List Point) (p_index : ℕ) (p_tangent : ℚ) :
    List Point :=
  if p_index < pts.length then
    pts.set p_index
      { pts.getD p_index default with
        right_tangent := p_tangent, right_mode := .TANGENT_FREE }
  else pts

/-- MIN_Y_RANGE constant (curvature.cpp line 325). -/
def MIN_Y_RANGE : ℚ := 1 / 100

/-- The range-manager slice of the curve state: `_min_value`, `_max_value`
and the `_minmax_set_once` bitmask (first bit = min set, second bit = max
set), with the defaults of curvature.h. -/
structure RangeState where
  min_value : ℚ := 0
  max_value : ℚ := 1
  minmax_set_once : ℕ := 0
deriving DecidableEq, Repr

/-- BetterCurve::set_min_value (curvature.cpp lines 327-337).  The guard is
the source's `_minmax_set_once & 0b11`, i.e. it fires as soon as the mask
is non-zero; the clamping branch does not update the mask. -/
def set_min_value (st : RangeState) (p_min : ℚ) : RangeState :=
  if st.minmax_set_once &&& 3 ≠ 0 ∧ p_min > st.max_value - MIN_Y_RANGE then
    { st with min_value := st.max_value - MIN_Y_RANGE }
  else
    { st with minmax_set_once := st.minmax_set_once ||| 2, min_value := p_min }

/-- BetterCurve::set_max_value (curvature.cpp lines 339-347). -/
def set_max_value (st : RangeState) (p_max : ℚ) : RangeState :=
  if st.minmax_set_once &&& 3 ≠ 0 ∧ p_max < st.min_value + MIN_Y_RANGE then
    { st with max_value := st.min_value + MIN_Y_RANGE }
  else
    { st with minmax_set_once := st.minmax_set_once ||| 1, max_value := p_max }

/-- The linear-tangent slope used by the Tangent Resolver.  The source
computes `v = (q - p).normalized()` and then `v.y / v.x`; normalizing
divides both components by the same positive length, so in exact
arithmetic the quotient equals `(q.y - p.y) / (q.x - p.x)`. -/
def slope (q p : ℚ × ℚ) : ℚ := (q.2 - p.2) / (q.1 - p.1)

/-- BetterCurve::update_auto_tangents (curvature.cpp lines 299-323),
as the sequence of its four conditional writes: the point's own left
tangent, the previous point's right tangent, the point's own right
tangent, and the next point's left tangent, each recomputed from the
neighbor slope when the corresponding mode is TANGENT_LINEAR. -/
def update_auto_tangents (pts : List Point) (p_index : ℕ) : List Point :=
  let s1 :=
    if 0 < p_index ∧ (pts.getD p_index default).left_mode = .TANGENT_LINEAR then
      pts.set p_index
        { pts.getD p_index default with
          left_tangent :=
            slope (pts.getD (p_index - 1) default).position
              (pts.getD p_index default).position }
    else pts
  let s2 :=
    if 0 < p_index ∧ (s1.getD (p_index - 1) default).right_mode = .TANGENT_LINEAR then
      s1.set (p_index - 1)
        { s1.getD (p_index - 1) default with
          right_tangent :=
            slope (s1.getD (p_index - 1) default).position
              (s1.getD p_index default).position }
    else s1
  let s3 :=
    if p_index + 1 < s2.length ∧ (s2.getD p_index default).right_mode = .TANGENT_LINEAR then
      s2.set p_index
        { s2.getD p_index default with
          right_tangent :=
            slope (s2.getD (p_index + 1) default).position
              (s2.getD p_index default).position }
    else s2
  let s4 :=
    if p_index + 1 < s3.length ∧ (s3.getD (p_index + 1) default).left_mode = .TANGENT_LINEAR then
      s3.set (p_index + 1)
        { s3.getD (p_index + 1) default with
          left_tangent :=
            slope (s3.getD (p_index + 1) default).position
              (s3.getD p_index default).position }
    else s3
  s4

/-- BetterCurve::_add_point (curvature.cpp lines 42-94): clamps x into
[MIN_X, MAX_X], inserts preserving order (special cases for 0 and 1
existing points, otherwise via get_index), runs update_auto_tangents on
the resulting index, and returns (new store, index). -/
def _add_point (pts : List Point) (p_position : ℚ × ℚ)
    (p_left_tangent p_right_tangent : ℚ)
    (p_left_mode p_right_mode : TangentMode) : List Point × ℕ :=
  let x :=
    if p_position.1 > MAX_X then MAX_X
    else if p_position.1 < MIN_X then MIN_X
    else p_position.1
  let np : Point :=
    { position := (x, p_position.2), left_tangent := p_left_tangent,
      right_tangent := p_right_tangent, left_mode := p_left_mode,
      right_mode := p_right_mode }
  let step : List Point × ℕ :=
    if pts.length = 0 then
      (pts ++ [np], 0)
    else if pts.length = 1 then
      if x - px pts 0 > 0 then (pts ++ [np], 1) else (np :: pts, 0)
    else
      let i := get_index pts x
      if i = 0 ∧ x < px pts 0 then
        (np :: pts, 0)
      else
        (pts.insertIdx (i + 1) np, i + 1)
  (update_auto_tangents step.1 step.2, step.2)

/-- BetterCurve::set_point_offset (curvature.cpp lines 273-287): removes
the point, re-inserts it at the new x through _add_point (which clamps
and re-sorts), restores its tangent data at the new index, and
re-resolves auto tangents at the old and new indices.  An out-of-range
index fails ERR_FAIL_INDEX_V and returns -1 with the store unchanged. -/
def set_point_offset (pts : List Point) (p_index : ℕ) (p_offset : ℚ) :
    List Point × ℤ :=
  if p_index < pts.length then
    let p := pts.getD p_index default
    let pts1 := pts.eraseIdx p_index
    let r := _add_point pts1 (p_offset, p.position.2) 0 0 .TANGENT_FREE .TANGENT_FREE
    let i := r.2
    let pts3 := r.1.set i
      { r.1.getD i default with
        left_tangent := p.left_tangent, right_tangent := p.right_tangent,
        left_mode := p.left_mode, right_mode := p.right_mode }
    let pts4 := if p_index ≠ i then update_auto_tangents pts3 p_index else pts3
    (update_auto_tangents pts4 i, (i : ℤ))
  else
    (pts, -1)

/-- Godot's Math::is_zero_approx: |s| < CMP_EPSILON. -/
def is_zero_approx (s : ℚ) : Bool := |s| < CMP_EPSILON

/-- Godot's Math::bezier_interpolate: the standard cubic Bézier blend of
(p_start, p_control_1, p_control_2, p_end) at parameter t. -/
def bezier_interpolate (p_start p_control_1 p_control_2 p_end t : ℚ) : ℚ :=
  let omt := 1 - t
  let omt2 := omt * omt
  let omt3 := omt2 * omt
  let t2 := t * t
  let t3 := t2 * t
  p_start * omt3 + p_control_1 * omt2 * t * 3 + p_control_2 * omt * t2 * 3 +
    p_end * t3

/-- Godot's Math::lerp. -/
def lerp (a b t : ℚ) : ℚ := a + t * (b - a)

/-- BetterCurve::_sample_local_nocheck (curvature.cpp lines 712-743):
cubic Bézier over segment [p_index, p_index+1] with control points at
equal thirds of the segment width; a near-zero-width segment returns the
right endpoint's y. -/
def _sample_local_nocheck (p_index : ℕ) (p_local_offset : ℚ)
    (points : List Point) : ℚ :=
  let a := points.getD p_index default
  let b := points.getD (p_index + 1) default
  let d := b.position.1 - a.position.1
  if is_zero_approx d then
    b.position.2
  else
    let t := p_local_offset / d
    let d3 := d / 3
    let yac := a.position.2 + d3 * a.right_tangent
    let ybc := b.position.2 - d3 * b.left_tangent
    bezier_interpolate a.position.2 yac ybc b.position.2 t

/-- BetterCurve::_sample (curvature.cpp lines 687-706): the Direct
Sampler's case analysis given a segment index `idx`. -/
def _sample (offset : ℚ) (points : List Point) (idx : ℕ) : ℚ :=
  if points.length = 0 then 0
  else if points.length = 1 then py points 0
  else if idx = points.length - 1 then py points idx
  else
    let loc := offset - px points idx
    if idx = 0 ∧ loc ≤ 0 then py points 0
    else _sample_local_nocheck idx loc points

/-- The Direct Sampler as the specification composes it: locate the
segment with get_index, then evaluate _sample there. -/
def direct_sample (points : List Point) (offset : ℚ) : ℚ :=
  _sample offset points (get_index points offset)

/-- The curve state visible to the samplers and the bake: the point
store, the baked cache and the bake resolution (default 100). -/
structure CurveState where
  points : List Point := []
  baked_cache : List ℚ := []
  bake_resolution : ℕ := 100
deriving DecidableEq, Repr

/-- BetterCurve::sample_baked (curvature.cpp lines 446-476): falls back
to 0 / first point's y when the cache is empty, returns the single
entry when the cache has one, and otherwise linearly interpolates the
cache at fractional index `p_offset * (len - 1)` with clamping. -/
def sample_baked (st : CurveState) (p_offset : ℚ) : ℚ :=
  let cache := st.baked_cache
  if cache.length = 0 then
    if st.points.length = 0 then 0 else py st.points 0
  else if cache.length = 1 then
    cache.getD 0 0
  else
    let fi0 : ℚ := p_offset * ((cache.length : ℚ) - 1)
    let i0 : ℤ := ⌊fi0⌋
    let i : ℤ := if i0 < 0 then 0
      else if i0 ≥ (cache.length : ℤ) then (cache.length : ℤ) - 1 else i0
    let fi : ℚ := if i0 < 0 then 0
      else if i0 ≥ (cache.length : ℤ) then 0 else fi0
    if i + 1 < (cache.length : ℤ) then
      let t := fi - (i : ℚ)
      lerp (cache.getD i.toNat 0) (cache.getD (i.toNat + 1) 0) t
    else
      cache.getD (cache.length - 1) 0

/-- BetterCurve::sample (curvature.cpp lines 349-351): delegates to
sample_baked. -/
def sample (st : CurveState) (p_offset : ℚ) : ℚ :=
  sample_baked st p_offset

/-- BetterCurve::bake (curvature.cpp lines 420-437): clears and resizes
the cache to the bake resolution (new entries zero-initialized), fills
indices 1..resolution-2 by calling sample (which reads the cache being
built), then, when the store is non-empty, forces index 0 to the first
point's y and the last index to the last point's y. -/
def bake (st : CurveState) : CurveState :=
  let res := st.bake_resolution
  let cache0 : List ℚ := List.replicate res 0
  let cache1 := (List.range' 1 (res - 2)).foldl
    (fun (cache : List ℚ) (i : ℕ) =>
      let x : ℚ := (i : ℚ) / ((res : ℚ) - 1)
      cache.set i (sample { st with baked_cache := cache } x))
    cache0
  let cache2 :=
    if st.points.length ≠ 0 then
      let c := cache1.set 0 (py st.points 0)
      c.set (c.length - 1) (py st.points (st.points.length - 1))
    else cache1
  { st with baked_cache := cache2 }

/-- A Godot Variant restricted to the cases BetterCurve::set_data
distinguishes: NIL, BOOL, INT, FLOAT, VECTOR2, and a catch-all for any
other Variant type. -/
inductive Variant where
  | vnil
  | vbool (b : Bool)
  | vint (i : ℤ)
  | vfloat (q : ℚ)
  | vvector2 (v : ℚ × ℚ)
  | vother
deriving DecidableEq, Repr

instance : Inhabited Variant := ⟨.vnil⟩

/-- get_type() == Variant::VECTOR2. -/
def Variant.isVector2 : Variant → Bool
  | .vvector2 _ => true
  | _ => false

/-- get_type() == Variant::FLOAT. -/
def Variant.isFloat : Variant → Bool
  | .vfloat _ => true
  | _ => false

/-- get_type() == Variant::INT. -/
def Variant.isInt : Variant → Bool
  | .vint _ => true
  | _ => false

/-- Variant::is_num(): true for INT and FLOAT. -/
def Variant.is_num : Variant → Bool
  | .vint _ => true
  | .vfloat _ => true
  | _ => false

/-- Conversion of a Variant to an int, as in `int left_mode = p_input[i + 3]`
(only reached on INT variants in set_data). -/
def Variant.toIntVal : Variant → ℤ
  | .vint i => i
  | .vfloat q => ⌊q⌋
  | .vbool b => if b then 1 else 0
  | _ => 0

/-- Conversion of a Variant to a real, as in `p.left_tangent = p_input[i + 1]`
(only reached on numeric variants in set_data). -/
def Variant.toReal : Variant → ℚ
  | .vint i => (i : ℚ)
  | .vfloat q => q
  | .vbool b => if b then 1 else 0
  | _ => 0

/-- Conversion of a Variant to a Vector2 (only reached on VECTOR2
variants in set_data). -/
def Variant.toVector2 : Variant → ℚ × ℚ
  | .vvector2 v => v
  | _ => (0, 0)

/-- The cast `(TangentMode)left_mode` for an int already validated to lie
in [0, TANGENT_MODE_COUNT). -/
def intToMode (i : ℤ) : TangentMode :=
  if i = 1 then .TANGENT_LINEAR else .TANGENT_FREE

/-- BetterCurve::get_data (curvature.cpp lines 353-370): exports the
store as consecutive 5-element tuples (position, left_tangent,
right_tangent, left_mode, right_mode). -/
def get_data (pts : List Point) : List Variant :=
  (pts.map fun p =>
    [Variant.vvector2 p.position, Variant.vfloat p.left_tangent,
      Variant.vfloat p.right_tangent, Variant.vint p.left_mode.toInt,
      Variant.vint p.right_mode.toInt]).flatten

/-- The per-tuple checks of the validation loop of BetterCurve::set_data
(curvature.cpp lines 382-394): slot 0 must be a VECTOR2, slot 1 passes
is_num(), slot 2 must be a FLOAT, slots 3 and 4 must be INTs in
[0, TANGENT_MODE_COUNT). -/
def valid_tuple (t0 t1 t2 t3 t4 : Variant) : Bool :=
  t0.isVector2 && t1.is_num && t2.isFloat &&
    (t3.isInt && decide (0 ≤ t3.toIntVal ∧ t3.toIntVal < TANGENT_MODE_COUNT)) &&
    (t4.isInt && decide (0 ≤ t4.toIntVal ∧ t4.toIntVal < TANGENT_MODE_COUNT))

/-- The validation loop of set_data over the whole input, stepping by 5
(the element count is a multiple of 5 when this is reached). -/
def validate_data : List Variant → Bool
  | [] => true
  | t0 :: t1 :: t2 :: t3 :: t4 :: rest =>
    valid_tuple t0 t1 t2 t3 t4 && validate_data rest
  | _ => false

/-- The write loop of set_data (curvature.cpp lines 400-411): decode each
validated tuple into a Point. -/
def decode_data : List Variant → List Point
  | t0 :: t1 :: t2 :: t3 :: t4 :: rest =>
    { position := t0.toVector2, left_tangent := t1.toReal,
      right_tangent := t2.toReal, left_mode := intToMode t3.toIntVal,
      right_mode := intToMode t4.toIntVal } :: decode_data rest
  | _ => []

/-- BetterCurve::set_data (curvature.cpp lines 372-418): rejects inputs
whose length is not a multiple of 5 and inputs with any invalid tuple
(ERR_FAIL_COND returns before any mutation, leaving the store as it
was); otherwise replaces the whole store by the decoded sequence. -/
def set_data (pts : List Point) (p_input : List Variant) : List Point :=
  if p_input.length % 5 = 0 ∧ validate_data p_input = true then
    decode_data p_input
  else pts

/-- The x coordinate of a point, as ordering key. -/
def posx (p : Point) : ℚ := p.position.1

/-- The point store's ordering invariant: sorted ascending by position.x. -/
def SortedX (pts : List Point) : Prop :=
  List.Pairwise (fun a b => posx a ≤ posx b) pts

end BetterCurve

namespace BetterCurve

lemma SortedX.px_mono {pts : List Point} (hs : SortedX pts) {i j : ℕ}
    (hij : i ≤ j) (hj : j < pts.length) : px pts i ≤ px pts j := by
  rcases Nat.eq_or_lt_of_le hij with rfl | hlt
  · exact le_refl _
  · have hi : i < pts.length := lt_trans hlt hj
    have := List.pairwise_iff_get.mp hs ⟨i, hi⟩ ⟨j, hj⟩ hlt
    simpa [px, posx, List.getD_eq_getElem, hi, hj] using this

lemma px_eq_getElem {pts : List Point} {j : ℕ} (h : j < pts.length) :
    px pts j = pts[j].position.1 := by
  simp [px, List.getD_eq_getElem, h]

lemma sortedX_iff_map {pts : List Point} :
    SortedX pts ↔ (pts.map posx).Pairwise (· ≤ ·) := by
  rw [List.pairwise_map]
  exact Iff.rfl

lemma list_set_self {α : Type} (l : List α) (i : ℕ) (h : i < l.length) :
    l.set i l[i] = l := by
  apply List.ext_getElem?
  intro n
  rw [List.getElem?_set]
  split_ifs with h1
  · subst h1
    simp [List.getElem?_eq_getElem h]
  · rfl

lemma posmap_set {pts : List Point} {i : ℕ} {q : Point}
    (hq : q.position.1 = px pts i) :
    (pts.set i q).map posx = pts.map posx := by
  by_cases hlen : i < pts.length
  · rw [List.map_set]
    have h2 : i < (pts.map posx).length := by simpa using hlen
    have hv : posx q = (pts.map posx)[i] := by
      simp [posx, hq, px_eq_getElem hlen]
    rw [hv, list_set_self _ _ h2]
  · rw [List.set_eq_of_length_le (le_of_not_lt hlen)]

lemma posmap_condset {pts : List Point} (c : Prop) [Decidable c] {i : ℕ}
    {q : Point} (hq : q.position.1 = px pts i) :
    (if c then pts.set i q else pts).map posx = pts.map posx := by
  split_ifs
  · exact posmap_set hq
  · rfl

lemma posmap_update_auto (pts : List Point) (i : ℕ) :
    (update_auto_tangents pts i).map posx = pts.map posx := by
  unfold update_auto_tangents
  dsimp only
  rw [posmap_condset, posmap_condset, posmap_condset, posmap_condset] <;> rfl

theorem get_index_loop_spec (pts : List Point) (x : ℚ) (hs : SortedX pts) :
    ∀ (k imin imax : ℕ), imax - imin ≤ k → imin < imax →
      imax ≤ pts.length - 1 →
      (imin = 0 ∨ px pts imin < x) →
      (imax = pts.length - 1 ∨ x < px pts imax) →
      (get_index_loop pts x imin imax = 0 ∧ x < px pts 0) ∨
      (px pts (get_index_loop pts x imin imax) ≤ x ∧
        get_index_loop pts x imin imax + 1 ≤ pts.length - 1 ∧
        x ≤ px pts (get_index_loop pts x imin imax + 1)) ∨
      (get_index_loop pts x imin imax = pts.length - 1 ∧
        px pts (get_index_loop pts x imin imax) < x) := by
  intro k
  induction k with
  | zero =>
    intro imin imax hk h1 _ _ _
    omega
  | succ k ih =>
    intro imin imax hk h1 h2 h3 h4
    rw [get_index_loop.eq_def]
    by_cases hgt : 1 < imax - imin
    · simp only [hgt, dite_true]
      set m := (imin + imax) / 2 with hm
      have hm1 : imin < m := by omega
      have hm2 : m < imax := by omega
      by_cases hc1 : px pts m < x ∧ px pts (m + 1) < x
      · simp only [hc1, and_self, if_true]
        exact ih m imax (by omega) (by omega) h2 (Or.inr hc1.1) h4
      · simp only [hc1, if_false]
        by_cases hc2 : px pts m > x
        · simp only [hc2, if_true]
          exact ih imin m (by omega) (by omega) (by omega) h3 (Or.inr hc2)
        · simp only [hc2, if_false]
          have hmle : px pts m ≤ x := not_lt.mp hc2
          have hmlen : m + 1 ≤ pts.length - 1 := by omega
          refine Or.inr (Or.inl ⟨hmle, hmlen, ?_⟩)
          rcases lt_or_eq_of_le hmle with hlt | heq
          · by_contra hub
            exact hc1 ⟨hlt, not_le.mp hub⟩
          · have hmono : px pts m ≤ px pts (m + 1) :=
              hs.px_mono (Nat.le_succ m) (by omega)
            exact heq ▸ hmono
    · rw [dif_neg hgt]
      have hxe : imax = imin + 1 := by omega
      by_cases hlast : x > px pts imax
      · rw [if_pos hlast]
        rcases h4 with h4 | h4
        · exact Or.inr (Or.inr ⟨h4, hlast⟩)
        · linarith
      · rw [if_neg hlast]
        have hxle : x ≤ px pts imax := not_lt.mp hlast
        rcases h3 with h3 | h3
        · subst h3
          by_cases h0 : x < px pts 0
          · exact Or.inl ⟨rfl, h0⟩
          · exact Or.inr (Or.inl ⟨not_lt.mp h0, by omega, by
              simpa [hxe] using hxle⟩)
        · exact Or.inr (Or.inl ⟨le_of_lt h3, by omega, by
            simpa [hxe] using hxle⟩)

theorem get_index_spec (pts : List Point) (x : ℚ) (hs : SortedX pts)
    (h2 : 2 ≤ pts.length) :
    (get_index pts x = 0 ∧ x < px pts 0) ∨
    (px pts (get_index pts x) ≤ x ∧ get_index pts x + 1 ≤ pts.length - 1 ∧
      x ≤ px pts (get_index pts x + 1)) ∨
    (get_index pts x = pts.length - 1 ∧ px pts (get_index pts x) < x) :=
  get_index_loop_spec pts x hs pts.length 0 (pts.length - 1) (by omega)
    (by omega) (by omega) (Or.inl rfl) (Or.inl rfl)

lemma mem_insertIdx' {p b : Point} :
    ∀ (l : List Point) (k : ℕ), b ∈ l.insertIdx k p → b = p ∨ b ∈ l
  | l, 0 => by
    rw [List.insertIdx_zero]
    intro h
    exact List.mem_cons.mp h
  | [], _+1 => by simp
  | a :: l, k+1 => by
    rw [List.insertIdx_succ_cons]
    intro h
    rcases List.mem_cons.mp h with rfl | h
    · exact Or.inr (List.mem_cons_self _ _)
    · rcases mem_insertIdx' l k h with h | h
      · exact Or.inl h
      · exact Or.inr (List.mem_cons_of_mem _ h)

lemma sortedX_insertIdx {p : Point} :
    ∀ (l : List Point) (k : ℕ), SortedX l →
      (∀ a ∈ l.take k, posx a ≤ posx p) →
      (∀ b ∈ l.drop k, posx p ≤ posx b) →
      SortedX (l.insertIdx k p)
  | l, 0, hs, _, hdrop => by
    rw [List.insertIdx_zero]
    exact List.Pairwise.cons (by simpa using hdrop) hs
  | [], _+1, _, _, _ => by simp [SortedX]
  | a :: l, k+1, hs, htake, hdrop => by
    rw [List.insertIdx_succ_cons]
    rcases List.pairwise_cons.mp hs with ⟨ha, hl⟩
    refine List.Pairwise.cons ?_ (sortedX_insertIdx l k hl ?_ ?_)
    · intro b hb
      rcases mem_insertIdx' l k hb with rfl | hb
      · exact htake a (by rw [List.take_succ_cons]; exact List.mem_cons_self _ _)
      · exact ha b hb
    · intro a' ha'
      exact htake a' (by rw [List.take_succ_cons]; exact List.mem_cons_of_mem _ ha')
    · intro b hb
      exact hdrop b (by rwa [List.drop_succ_cons])

theorem sortedX_of_posmap_eq {l1 l2 : List Point}
    (h : l1.map posx = l2.map posx) (hs : SortedX l1) : SortedX l2 := by
  rw [sortedX_iff_map] at hs ⊢
  rwa [h] at hs

lemma sortedX_all_head {pts : List Point} (hs : SortedX pts) {b : Point}
    (hb : b ∈ pts) : px pts 0 ≤ posx b := by
  rcases List.mem_iff_getElem.mp hb with ⟨j, hj, rfl⟩
  have := hs.px_mono (Nat.zero_le j) hj
  rwa [px_eq_getElem hj] at this

lemma sortedX_insertIdx_px {pts : List Point} {p : Point} {k : ℕ}
    (hs : SortedX pts)
    (htake : ∀ j, j < k → j < pts.length → px pts j ≤ posx p)
    (hdrop : ∀ j, k ≤ j → j < pts.length → posx p ≤ px pts j) :
    SortedX (pts.insertIdx k p) := by
  apply sortedX_insertIdx pts k hs
  · intro a ha
    rcases List.mem_iff_getElem.mp ha with ⟨j, hj, rfl⟩
    rw [List.getElem_take]
    have h1 : j < k := by
      simp only [List.length_take] at hj
      omega
    have h2 : j < pts.length := by
      simp only [List.length_take] at hj
      omega
    have := htake j h1 h2
    rwa [px_eq_getElem h2, posx] at this
  · intro b hb
    rcases List.mem_iff_getElem.mp hb with ⟨j, hj, rfl⟩
    rw [List.getElem_drop]
    have h2 : k + j < pts.length := by
      simp only [List.length_drop] at hj
      omega
    have := hdrop (k + j) (by omega) h2
    rwa [px_eq_getElem h2, posx] at this

theorem _add_point_sorted (pts : List Point) (pos : ℚ × ℚ) (lt rt : ℚ)
    (lm rm : TangentMode) (hs : SortedX pts) :
    SortedX (_add_point pts pos lt rt lm rm).1 := by
  unfold _add_point
  dsimp only
  set x : ℚ :=
    if pos.1 > MAX_X then MAX_X else if pos.1 < MIN_X then MIN_X else pos.1
    with hxdef
  apply sortedX_of_posmap_eq (posmap_update_auto _ _).symm
  by_cases h0 : pts.length = 0
  · rw [if_pos h0]
    rw [List.length_eq_zero] at h0
    subst h0
    simp [SortedX]
  · rw [if_neg h0]
    by_cases h1 : pts.length = 1
    · rw [if_pos h1]
      obtain ⟨a, rfl⟩ := List.length_eq_one.mp h1
      by_cases h3 : x - px [a] 0 > 0
      · rw [if_pos h3]
        show SortedX [a, _]
        refine List.Pairwise.cons ?_ (List.pairwise_singleton _ _)
        intro b hb
        rw [List.mem_singleton] at hb
        subst hb
        have hax : px [a] 0 < x := by linarith
        simp only [posx]
        simpa [px, List.getD] using le_of_lt hax
      · rw [if_neg h3]
        show SortedX (_ :: [a])
        refine List.Pairwise.cons ?_ (List.pairwise_singleton _ _)
        intro b hb
        rw [List.mem_singleton] at hb
        subst hb
        have hax : x ≤ px [b] 0 := by
          have := not_lt.mp h3
          linarith
        simp only [posx]
        simpa [px, List.getD] using hax
    · rw [if_neg h1]
      have hlen : 2 ≤ pts.length := by omega
      by_cases h4 : get_index pts x = 0 ∧ x < px pts 0
      · rw [if_pos h4]
        show SortedX (_ :: pts)
        refine List.Pairwise.cons ?_ hs
        intro b hb
        have hhead := sortedX_all_head hs hb
        have hx0 := h4.2
        simp only [posx] at *
        linarith
      · rw [if_neg h4]
        show SortedX (pts.insertIdx (get_index pts x + 1) _)
        rcases get_index_spec pts x hs hlen with hA | ⟨hBl, hBlen, hBr⟩ | ⟨hCi, hCx⟩
        · exact absurd hA h4
        · apply sortedX_insertIdx_px hs
          · intro j hj hjlen
            have hmono : px pts j ≤ px pts (get_index pts x) :=
              hs.px_mono (by omega) (by omega)
            show px pts j ≤ x
            linarith
          · intro j hj hjlen
            have hmono : px pts (get_index pts x + 1) ≤ px pts j :=
              hs.px_mono (by omega) hjlen
            show (x : ℚ) ≤ px pts j
            linarith
        · apply sortedX_insertIdx_px hs
          · intro j hj hjlen
            have hmono : px pts j ≤ px pts (get_index pts x) :=
              hs.px_mono (by omega) (by omega)
            show px pts j ≤ x
            linarith
          · intro j hj hjlen
            omega

end BetterCurve

namespace BetterCurve

lemma px_eq_mapgetD (l : List Point) (j : ℕ) :
    px l j = (l.map posx).getD j 0 := by
  by_cases h : j < l.length
  · have h2 : j < (l.map posx).length := by simpa using h
    rw [px_eq_getElem h, List.getD_eq_getElem _ _ h2, List.getElem_map]
    rfl
  · have h2 : (l.map posx).length ≤ j := by simpa using le_of_not_lt h
    rw [px, List.getD_eq_default _ _ (le_of_not_lt h),
      List.getD_eq_default _ _ h2]
    rfl

set_option maxHeartbeats 800000 in
theorem set_point_offset_sorted (pts : List Point) (i : ℕ) (x : ℚ)
    (hs : SortedX pts) : SortedX (set_point_offset pts i x).1 := by
  unfold set_point_offset
  by_cases h : i < pts.length
  · rw [if_pos h]
    dsimp only
    generalize hr : _add_point (pts.eraseIdx i)
      (x, (pts.getD i default).position.2) 0 0 .TANGENT_FREE .TANGENT_FREE = r
    have hs1 : SortedX (pts.eraseIdx i) :=
      List.Pairwise.sublist (List.eraseIdx_sublist pts i) hs
    have hs2 : SortedX r.1 := by
      rw [← hr]
      exact _add_point_sorted _ _ _ _ _ _ hs1
    refine sortedX_of_posmap_eq ?_ hs2
    rw [posmap_update_auto]
    split_ifs
    · rw [posmap_update_auto]
      refine (posmap_set ?_).symm
      rfl
    · refine (posmap_set ?_).symm
      rfl
  · rw [if_neg h]
    exact hs

lemma _add_point_px (pts : List Point) (pos : ℚ × ℚ) (lt rt : ℚ)
    (lm rm : TangentMode) (hs : SortedX pts) :
    px (_add_point pts pos lt rt lm rm).1 (_add_point pts pos lt rt lm rm).2 =
      (if pos.1 > MAX_X then MAX_X else if pos.1 < MIN_X then MIN_X else pos.1) := by
  unfold _add_point
  dsimp only
  set x : ℚ :=
    if pos.1 > MAX_X then MAX_X else if pos.1 < MIN_X then MIN_X else pos.1
    with hxdef
  set np : Point :=
    { position := (x, pos.2), left_tangent := lt, right_tangent := rt,
      left_mode := lm, right_mode := rm } with hnp
  rw [px_eq_mapgetD, posmap_update_auto, ← px_eq_mapgetD]
  by_cases h0 : pts.length = 0
  · rw [if_pos h0]
    rw [List.length_eq_zero] at h0
    subst h0
    simp [px, List.getD]
  · rw [if_neg h0]
    by_cases h1 : pts.length = 1
    · rw [if_pos h1]
      obtain ⟨a, rfl⟩ := List.length_eq_one.mp h1
      by_cases h3 : x - px [a] 0 > 0
      · rw [if_pos h3]
        simp [px, List.getD]
      · rw [if_neg h3]
        simp [px, List.getD]
    · rw [if_neg h1]
      have hlen : 2 ≤ pts.length := by omega
      by_cases h4 : get_index pts x = 0 ∧ x < px pts 0
      · rw [if_pos h4]
        simp [px, List.getD]
      · rw [if_neg h4]
        have hkle : get_index pts x + 1 ≤ pts.length := by
          rcases get_index_spec pts x hs hlen with hA | ⟨_, hBlen, _⟩ | ⟨hCi, _⟩
          · exact absurd hA h4
          · omega
          · omega
        have hlt : get_index pts x + 1 <
            (pts.insertIdx (get_index pts x + 1) np).length := by
          rw [List.length_insertIdx _ _ hkle]
          omega
        dsimp only
        rw [px_eq_getElem hlt, List.getElem_insertIdx_self pts np _ hkle]

end BetterCurve

namespace BetterCurve

lemma getD_set_self' {α : Type} (l : List α) (i : ℕ) (a d : α)
    (h : i < l.length) : (l.set i a).getD i d = a := by
  simp [List.getD, List.getElem?_set, h]

lemma getD_set_ne' {α : Type} (l : List α) (i j : ℕ) (a d : α)
    (h : i ≠ j) : (l.set i a).getD j d = l.getD j d := by
  simp [List.getD, List.getElem?_set, h]

/-- Claim C10: set_point_left_tangent stores the tangent and forces the
left mode to TANGENT_FREE, and set_point_right_tangent stores the tangent
and forces the right mode to TANGENT_FREE; all other fields of the point,
all other points, and the store's length are unchanged. -/
theorem C10_tangent_setters (pts : List Point) (i : ℕ) (t : ℚ)
    (h : i < pts.length) :
    ((set_point_left_tangent pts i t).getD i default).left_tangent = t ∧
    ((set_point_left_tangent pts i t).getD i default).left_mode = .TANGENT_FREE ∧
    ((set_point_left_tangent pts i t).getD i default).right_tangent =
      (pts.getD i default).right_tangent ∧
    ((set_point_left_tangent pts i t).getD i default).right_mode =
      (pts.getD i default).right_mode ∧
    ((set_point_left_tangent pts i t).getD i default).position =
      (pts.getD i default).position ∧
    (∀ j, j ≠ i → (set_point_left_tangent pts i t).getD j default =
      pts.getD j default) ∧
    (set_point_left_tangent pts i t).length = pts.length ∧
    ((set_point_right_tangent pts i t).getD i default).right_tangent = t ∧
    ((set_point_right_tangent pts i t).getD i default).right_mode = .TANGENT_FREE ∧
    ((set_point_right_tangent pts i t).getD i default).left_tangent =
      (pts.getD i default).left_tangent ∧
    ((set_point_right_tangent pts i t).getD i default).left_mode =
      (pts.getD i default).left_mode ∧
    ((set_point_right_tangent pts i t).getD i default).position =
      (pts.getD i default).position ∧
    (∀ j, j ≠ i → (set_point_right_tangent pts i t).getD j default =
      pts.getD j default) ∧
    (set_point_right_tangent pts i t).length = pts.length := by
  unfold set_point_left_tangent set_point_right_tangent
  rw [if_pos h, if_pos h]
  refine ⟨?_, ?_, ?_, ?_, ?_, ?_, ?_, ?_, ?_, ?_, ?_, ?_, ?_, ?_⟩ <;>
    first
      | (rw [getD_set_self' _ _ _ _ h])
      | (intro j hj; rw [getD_set_ne' _ _ _ _ _ (Ne.symm hj)])
      | (rw [List.length_set])

/-- Witness for C10 at a concrete store and index. -/
theorem C10_tangent_setters_witness :
    (0 : ℕ) < ([{ position := ((0 : ℚ), (0 : ℚ)) }] : List Point).length ∧
    ((set_point_left_tangent [{ position := ((0 : ℚ), (0 : ℚ)) }] 0 3).getD 0
      default).left_tangent = 3 :=
  ⟨by simp, (C10_tangent_setters [{ position := ((0 : ℚ), (0 : ℚ)) }] 0 3
    (by simp)).1⟩

/-- Claim C2: on the ascending store with x-coordinates 0, 1/2, 1 —
all consecutive gaps far larger than CMP_EPSILON, so the claim says every
point is retained — clean_dupes nevertheless deletes every point after
the first, because the source computes the gap as x[i-1] - x[i] (negative
for ascending stores, hence always ≤ epsilon). -/
theorem C2_clean_dupes_failing_input :
    clean_dupes
      [{ position := ((0 : ℚ), (0 : ℚ)) }, { position := ((1 : ℚ)/2, 0) },
        { position := ((1 : ℚ), 0) }] =
      [{ position := ((0 : ℚ), (0 : ℚ)) }] ∧
    (1 : ℚ)/2 - 0 > CMP_EPSILON ∧ (1 : ℚ) - 1/2 > CMP_EPSILON := by
  refine ⟨?_, by norm_num [CMP_EPSILON], by norm_num [CMP_EPSILON]⟩
  norm_num [clean_dupes, clean_scan, CMP_EPSILON]

/-- Claim C3, counterexample: after a single set_min_value call the max
bound has never been explicitly set (its mask bit is still 0), yet a
second set_min_value(0.999) is already clamped to 0.99 instead of being
stored verbatim — the clamping guard fires once ANY bound has been set,
not once both have. -/
theorem C3_counterexample :
    (set_min_value {} (1/2)).minmax_set_once &&& 1 = 0 ∧
    (set_min_value (set_min_value {} (1/2)) (999/1000)).min_value = 99/100 ∧
    ((99 : ℚ)/100) ≠ 999/1000 := by
  refine ⟨?_, ?_, by norm_num⟩
  · rfl
  · have e1 : set_min_value {} (1/2) =
        { min_value := 1/2, max_value := 1, minmax_set_once := 0 ||| 2 } := by
      rw [set_min_value, if_neg]
      rintro ⟨h, -⟩
      exact h rfl
    rw [e1, set_min_value, if_pos]
    · norm_num [MIN_Y_RANGE]
    · exact ⟨by decide, by norm_num [MIN_Y_RANGE]⟩

/-- Claim C3 as amended: a set_min_value/set_max_value argument is stored
verbatim only while NO bound has ever been explicitly set (mask zero);
once at least one bound has been set, a min above max - 0.01 is clamped
to max - 0.01 and a max below min + 0.01 is clamped to min + 0.01, other
arguments being stored verbatim; in particular with min_value = 0 and
max_value = 1 both explicitly set, set_min_value(0.999) yields 0.99. -/
theorem C3_amended :
    (∀ (st : RangeState) (p : ℚ), st.minmax_set_once &&& 3 = 0 →
      (set_min_value st p).min_value = p ∧ (set_max_value st p).max_value = p) ∧
    (∀ (st : RangeState) (p : ℚ), st.minmax_set_once &&& 3 ≠ 0 →
      (p > st.max_value - MIN_Y_RANGE →
        (set_min_value st p).min_value = st.max_value - MIN_Y_RANGE) ∧
      (p ≤ st.max_value - MIN_Y_RANGE → (set_min_value st p).min_value = p) ∧
      (p < st.min_value + MIN_Y_RANGE →
        (set_max_value st p).max_value = st.min_value + MIN_Y_RANGE) ∧
      (st.min_value + MIN_Y_RANGE ≤ p → (set_max_value st p).max_value = p)) ∧
    (set_min_value (set_max_value (set_min_value {} 0) 1) (999/1000)).min_value
      = 99/100 := by
  refine ⟨?_, ?_, ?_⟩
  · intro st p hmask
    constructor
    · rw [set_min_value, if_neg]
      rintro ⟨hm, -⟩
      exact hm hmask
    · rw [set_max_value, if_neg]
      rintro ⟨hm, -⟩
      exact hm hmask
  · intro st p hmask
    refine ⟨?_, ?_, ?_, ?_⟩
    · intro hp
      rw [set_min_value, if_pos ⟨hmask, hp⟩]
    · intro hp
      rw [set_min_value, if_neg]
      rintro ⟨-, hgt⟩
      linarith
    · intro hp
      rw [set_max_value, if_pos ⟨hmask, hp⟩]
    · intro hp
      rw [set_max_value, if_neg]
      rintro ⟨-, hlt⟩
      linarith
  · have e1 : set_min_value {} 0 =
        { min_value := 0, max_value := 1, minmax_set_once := 0 ||| 2 } := by
      rw [set_min_value, if_neg]
      rintro ⟨h, -⟩
      exact h rfl
    have e2 : set_max_value
        { min_value := 0, max_value := 1, minmax_set_once := 0 ||| 2 } 1 =
        { min_value := 0, max_value := 1, minmax_set_once := 0 ||| 2 ||| 1 } := by
      rw [set_max_value, if_neg]
      rintro ⟨-, h⟩
      norm_num [MIN_Y_RANGE] at h
    rw [e1, e2, set_min_value, if_pos]
    · norm_num [MIN_Y_RANGE]
    · exact ⟨by decide, by norm_num [MIN_Y_RANGE]⟩

/-- Witness for C3 at a fresh state (mask zero): the first write is
stored verbatim. -/
theorem C3_amended_witness :
    ({} : RangeState).minmax_set_once &&& 3 = 0 ∧
    (set_min_value {} (7/2)).min_value = 7/2 :=
  ⟨by decide, (C3_amended.1 {} (7/2) (by decide)).1⟩

end BetterCurve

namespace BetterCurve

/-- Claim C4, counterexample: on the strictly ascending store with x
coordinates 0, 1/5, 1/2, 1 and query offset 1/2 (which equals an interior
point's x exactly), get_index returns 1, the segment whose RIGHT endpoint
is 1/2 — so the claimed strict upper bound points[i+1].x > x fails. -/
theorem C4_counterexample :
    get_index
      [{ position := ((0 : ℚ), (0 : ℚ)) }, { position := ((1 : ℚ)/5, 0) },
        { position := ((1 : ℚ)/2, 0) }, { position := ((1 : ℚ), 0) }]
      (1/2) = 1 ∧
    SortedX
      [{ position := ((0 : ℚ), (0 : ℚ)) }, { position := ((1 : ℚ)/5, 0) },
        { position := ((1 : ℚ)/2, 0) }, { position := ((1 : ℚ), 0) }] ∧
    ¬((1 : ℚ)/2 <
      px [{ position := ((0 : ℚ), (0 : ℚ)) }, { position := ((1 : ℚ)/5, 0) },
        { position := ((1 : ℚ)/2, 0) }, { position := ((1 : ℚ), 0) }] (1 + 1)) := by
  refine ⟨?_, ?_, ?_⟩
  · rw [get_index, get_index_loop.eq_def]
    norm_num [px, List.getD]
  · norm_num [SortedX, posx, List.pairwise_cons]
  · norm_num [px, List.getD]

/-- Claim C4 as amended: for a store of size at least 2 sorted ascending
by x, get_index(x) returns 0 when x is before the first point and the
last index when x is after the last point; for in-range x it returns an
index i with i+1 still in range and points[i].x ≤ x ≤ points[i+1].x —
the upper bound is NON-strict: when x coincides with an interior point's
x the search may return the segment ending at x instead of the one
starting at it. -/
theorem C4_amended (pts : List Point) (x : ℚ) (hs : SortedX pts)
    (h2 : 2 ≤ pts.length) :
    (x < px pts 0 → get_index pts x = 0) ∧
    (px pts (pts.length - 1) < x → get_index pts x = pts.length - 1) ∧
    (px pts 0 ≤ x → x ≤ px pts (pts.length - 1) →
      px pts (get_index pts x) ≤ x ∧ x ≤ px pts (get_index pts x + 1) ∧
      get_index pts x + 1 ≤ pts.length - 1) := by
  have hspec := get_index_spec pts x hs h2
  refine ⟨?_, ?_, ?_⟩
  · intro hx
    rcases hspec with ⟨h, -⟩ | ⟨hl, hlen, -⟩ | ⟨hi, hgt⟩
    · exact h
    · exfalso
      have := hs.px_mono (Nat.zero_le (get_index pts x))
        (show get_index pts x < pts.length by omega)
      linarith
    · exfalso
      have := hs.px_mono (Nat.zero_le (get_index pts x))
        (show get_index pts x < pts.length by omega)
      linarith
  · intro hx
    rcases hspec with ⟨h0, hlt⟩ | ⟨hl, hlen, hr⟩ | ⟨hi, -⟩
    · exfalso
      have : px pts 0 ≤ px pts (pts.length - 1) :=
        hs.px_mono (by omega) (by omega)
      linarith
    · exfalso
      have : px pts (get_index pts x + 1) ≤ px pts (pts.length - 1) :=
        hs.px_mono (by omega) (by omega)
      linarith
    · exact hi
  · intro hx0 hx1
    rcases hspec with ⟨h0, hlt⟩ | ⟨hl, hlen, hr⟩ | ⟨hi, hgt⟩
    · exfalso
      linarith
    · exact ⟨hl, hr, hlen⟩
    · exfalso
      rw [hi] at hgt
      linarith

/-- Witness for C4 on the two-point store x = 0, 1 at offset 1/4. -/
theorem C4_amended_witness :
    px [{ position := ((0 : ℚ), (0 : ℚ)) }, { position := ((1 : ℚ), 0) }]
        (get_index [{ position := ((0 : ℚ), (0 : ℚ)) },
          { position := ((1 : ℚ), 0) }] (1/4)) ≤ 1/4 ∧
    (1/4 : ℚ) ≤ px [{ position := ((0 : ℚ), (0 : ℚ)) },
        { position := ((1 : ℚ), 0) }]
        (get_index [{ position := ((0 : ℚ), (0 : ℚ)) },
          { position := ((1 : ℚ), 0) }] (1/4) + 1) ∧
    get_index [{ position := ((0 : ℚ), (0 : ℚ)) },
        { position := ((1 : ℚ), 0) }] (1/4) + 1 ≤
      ([{ position := ((0 : ℚ), (0 : ℚ)) },
        { position := ((1 : ℚ), 0) }] : List Point).length - 1 :=
  (C4_amended
    [{ position := ((0 : ℚ), (0 : ℚ)) }, { position := ((1 : ℚ), 0) }] (1/4)
    (by norm_num [SortedX, posx, List.pairwise_cons]) (by norm_num)).2.2
    (by norm_num [px, List.getD]) (by norm_num [px, List.getD])

lemma foldl_length_preserved {α : Type} (g : List ℚ → α → List ℚ)
    (hg : ∀ l a, (g l a).length = l.length) :
    ∀ (xs : List α) (l : List ℚ), (xs.foldl g l).length = l.length
  | [], _ => rfl
  | x :: xs, l => by
    rw [List.foldl_cons, foldl_length_preserved g hg xs (g l x), hg]

set_option maxRecDepth 8000 in
/-- Claim C6, counterexample: with two points of different y and bake
resolution 1 (a legal resolution: set_bake_resolution accepts 1..1000),
the two forced endpoint writes collide on the single cell and the last
write wins: entry 0 holds the LAST point's y (2), not the first point's
y (1) as the claim requires. -/
theorem C6_counterexample :
    (bake { points := [{ position := ((0 : ℚ), (1 : ℚ)) }, { position := ((1 : ℚ), (2 : ℚ)) }], baked_cache := [], bake_resolution := 1 }).baked_cache = [2] ∧
    py [{ position := ((0 : ℚ), (1 : ℚ)) }, { position := ((1 : ℚ), (2 : ℚ)) }] 0 = 1 ∧
    ((2 : ℚ) ≠ 1) := by
  refine ⟨?_, by norm_num [py, List.getD], by norm_num⟩
  norm_num [bake, py, List.getD]

/-- Claim C6 as amended: for a non-empty point store and any legal bake
resolution, bake() produces a table whose length is the resolution and
whose LAST entry is the last point's y; the entry at index 0 equals the
FIRST point's y provided the resolution is at least 2 (at resolution 1
the single cell receives both forced writes and ends at the last
point's y). -/
theorem C6_amended (st : CurveState) (hp : st.points ≠ [])
    (hres : 1 ≤ st.bake_resolution) :
    (bake st).baked_cache.length = st.bake_resolution ∧
    (bake st).baked_cache.getD (st.bake_resolution - 1) 0 =
      py st.points (st.points.length - 1) ∧
    (2 ≤ st.bake_resolution →
      (bake st).baked_cache.getD 0 0 = py st.points 0) := by
  unfold bake
  dsimp only
  rw [if_pos (by simpa using hp)]
  generalize hfold : List.foldl (fun (cache : List ℚ) (i : ℕ) => cache.set i (sample { points := st.points, baked_cache := cache, bake_resolution := st.bake_resolution } ((i : ℚ) / ((st.bake_resolution : ℚ) - 1)))) (List.replicate st.bake_resolution (0 : ℚ)) (List.range' 1 (st.bake_resolution - 2)) = c1
  have hlen1 : c1.length = st.bake_resolution := by
    rw [← hfold, foldl_length_preserved _ (by intro l a; rw [List.length_set]),
      List.length_replicate]
  have hlen2 : (c1.set 0 (py st.points 0)).length = st.bake_resolution := by
    rw [List.length_set, hlen1]
  refine ⟨?_, ?_, ?_⟩
  · rw [List.length_set, hlen2]
  · rw [hlen2, getD_set_self' _ _ _ _ (by omega)]
  · intro h2
    rw [hlen2, getD_set_ne' _ _ _ _ _ (by omega),
      getD_set_self' _ _ _ _ (by omega)]

/-- Witness for C6 at a two-point store with resolution 2. -/
theorem C6_amended_witness :
    (bake { points := [{ position := ((0 : ℚ), (1 : ℚ)) }, { position := ((1 : ℚ), (2 : ℚ)) }], baked_cache := [], bake_resolution := 2 }).baked_cache.length = 2 ∧
    (bake { points := [{ position := ((0 : ℚ), (1 : ℚ)) }, { position := ((1 : ℚ), (2 : ℚ)) }], baked_cache := [], bake_resolution := 2 }).baked_cache.getD 1 0 = py [{ position := ((0 : ℚ), (1 : ℚ)) }, { position := ((1 : ℚ), (2 : ℚ)) }] 1 ∧
    (2 ≤ 2 → (bake { points := [{ position := ((0 : ℚ), (1 : ℚ)) }, { position := ((1 : ℚ), (2 : ℚ)) }], baked_cache := [], bake_resolution := 2 }).baked_cache.getD 0 0 = py [{ position := ((0 : ℚ), (1 : ℚ)) }, { position := ((1 : ℚ), (2 : ℚ)) }] 0) :=
  C6_amended { points := [{ position := ((0 : ℚ), (1 : ℚ)) }, { position := ((1 : ℚ), (2 : ℚ)) }], baked_cache := [], bake_resolution := 2 } (by simp) (by norm_num)

end BetterCurve

namespace BetterCurve

/-- Claim C1, counterexample: with a single-point store of y = 5 the
claim says sample(0) returns 5 (the single point's y) independently of
the baked cache; but sample delegates to sample_baked, so with cache
[7, 7] it returns 7, and with cache [9, 9] it returns 9 — the result is
not the Direct Sampler's value and it does depend on the cache. -/
theorem C1_counterexample :
    sample { points := [{ position := ((0 : ℚ), (5 : ℚ)) }], baked_cache := [7, 7], bake_resolution := 100 } 0 = 7 ∧
    py [{ position := ((0 : ℚ), (5 : ℚ)) }] 0 = 5 ∧
    ((7 : ℚ) ≠ 5) ∧
    sample { points := [{ position := ((0 : ℚ), (5 : ℚ)) }], baked_cache := [9, 9], bake_resolution := 100 } 0 = 9 := by
  refine ⟨?_, by norm_num [py, List.getD], by norm_num, ?_⟩ <;>
    norm_num [sample, sample_baked, lerp, py, px, List.getD]

/-- Claim C1 as amended: the public sample(x) actually delegates to
sample_baked(x) and therefore depends on the baked cache; the Direct
Sampler described by the claim is the internal _sample helper, which,
composed with locate (direct_sample = _sample at index get_index(x)),
returns 0 for an empty store, the single point's y for one point, the
last point's y when the located index is the last point, the first
point's y when the located index is 0 and x is at or before the first
point, and otherwise the cubic Bézier evaluation
_sample_local_nocheck of the located segment. -/
theorem C1_amended :
    (∀ (st : CurveState) (x : ℚ), sample st x = sample_baked st x) ∧
    (∀ (pts : List Point) (x : ℚ),
      (pts.length = 0 → direct_sample pts x = 0) ∧
      (pts.length = 1 → direct_sample pts x = py pts 0) ∧
      (2 ≤ pts.length → get_index pts x = pts.length - 1 →
        direct_sample pts x = py pts (pts.length - 1)) ∧
      (2 ≤ pts.length → get_index pts x ≠ pts.length - 1 →
        get_index pts x = 0 → x ≤ px pts 0 → direct_sample pts x = py pts 0) ∧
      (2 ≤ pts.length → get_index pts x ≠ pts.length - 1 →
        ¬(get_index pts x = 0 ∧ x - px pts (get_index pts x) ≤ 0) →
        direct_sample pts x =
          _sample_local_nocheck (get_index pts x)
            (x - px pts (get_index pts x)) pts)) := by
  constructor
  · intro st x
    rfl
  · intro pts x
    refine ⟨?_, ?_, ?_, ?_, ?_⟩
    · intro h
      rw [direct_sample, _sample, if_pos h]
    · intro h
      rw [direct_sample, _sample, if_neg (by omega), if_pos h]
    · intro h2 hlast
      rw [direct_sample, _sample, if_neg (by omega), if_neg (by omega),
        if_pos hlast, hlast]
    · intro h2 hlast h0 hx
      rw [direct_sample, _sample, if_neg (by omega), if_neg (by omega),
        if_neg hlast]
      dsimp only
      rw [if_pos ⟨h0, by rw [h0]; linarith⟩]
    · intro h2 hlast hcond
      rw [direct_sample, _sample, if_neg (by omega), if_neg (by omega),
        if_neg hlast]
      dsimp only
      rw [if_neg hcond]

/-- Witness for C1 on the empty store and a one-point store. -/
theorem C1_amended_witness :
    ([] : List Point).length = 0 ∧ direct_sample [] 0 = 0 ∧
    ([{ position := ((0 : ℚ), (5 : ℚ)) }] : List Point).length = 1 ∧
    direct_sample [{ position := ((0 : ℚ), (5 : ℚ)) }] 0 =
      py [{ position := ((0 : ℚ), (5 : ℚ)) }] 0 :=
  ⟨rfl, (C1_amended.2 [] 0).1 rfl, by simp,
    (C1_amended.2 [{ position := ((0 : ℚ), (5 : ℚ)) }] 0).2.1 (by simp)⟩

/-- Claim C5: starting from any store sorted ascending by position.x,
_add_point and set_point_offset keep the store sorted ascending by
position.x; the point inserted by _add_point carries the x of the
request clamped into [MIN_X, MAX_X] = [0, 1]. -/
theorem C5_ordering (pts : List Point) (pos : ℚ × ℚ) (lt rt : ℚ)
    (lm rm : TangentMode) (i : ℕ) (x : ℚ) (hs : SortedX pts) :
    SortedX (_add_point pts pos lt rt lm rm).1 ∧
    SortedX (set_point_offset pts i x).1 ∧
    px (_add_point pts pos lt rt lm rm).1 (_add_point pts pos lt rt lm rm).2 =
      (if pos.1 > MAX_X then MAX_X else if pos.1 < MIN_X then MIN_X else pos.1) ∧
    MIN_X ≤ px (_add_point pts pos lt rt lm rm).1 (_add_point pts pos lt rt lm rm).2 ∧
    px (_add_point pts pos lt rt lm rm).1 (_add_point pts pos lt rt lm rm).2 ≤ MAX_X := by
  refine ⟨_add_point_sorted pts pos lt rt lm rm hs,
    set_point_offset_sorted pts i x hs, _add_point_px pts pos lt rt lm rm hs,
    ?_, ?_⟩
  · rw [_add_point_px pts pos lt rt lm rm hs]
    simp only [MIN_X, MAX_X]
    split_ifs <;> linarith
  · rw [_add_point_px pts pos lt rt lm rm hs]
    simp only [MIN_X, MAX_X]
    split_ifs <;> linarith

/-- Witness for C5: inserting (2, 3) into the empty store. -/
theorem C5_ordering_witness :
    SortedX ([] : List Point) ∧
    SortedX (_add_point [] ((2 : ℚ), (3 : ℚ)) 0 0 .TANGENT_FREE .TANGENT_FREE).1 ∧
    px (_add_point [] ((2 : ℚ), (3 : ℚ)) 0 0 .TANGENT_FREE .TANGENT_FREE).1
      (_add_point [] ((2 : ℚ), (3 : ℚ)) 0 0 .TANGENT_FREE .TANGENT_FREE).2 ≤ MAX_X :=
  ⟨List.Pairwise.nil,
    (C5_ordering [] ((2 : ℚ), (3 : ℚ)) 0 0 .TANGENT_FREE .TANGENT_FREE 0 0
      List.Pairwise.nil).1,
    (C5_ordering [] ((2 : ℚ), (3 : ℚ)) 0 0 .TANGENT_FREE .TANGENT_FREE 0 0
      List.Pairwise.nil).2.2.2.2⟩

end BetterCurve

namespace BetterCurve

lemma get_data_valid : ∀ (pts : List Point),
    validate_data (get_data pts) = true ∧ decode_data (get_data pts) = pts
  | [] => ⟨rfl, rfl⟩
  | p :: rest => by
    have ih := get_data_valid rest
    constructor
    · show validate_data (Variant.vvector2 p.position ::
        Variant.vfloat p.left_tangent :: Variant.vfloat p.right_tangent ::
        Variant.vint p.left_mode.toInt :: Variant.vint p.right_mode.toInt ::
        get_data rest) = true
      rw [validate_data, Bool.and_eq_true]
      refine ⟨?_, ih.1⟩
      cases p.left_mode <;> cases p.right_mode <;> rfl
    · show decode_data (Variant.vvector2 p.position ::
        Variant.vfloat p.left_tangent :: Variant.vfloat p.right_tangent ::
        Variant.vint p.left_mode.toInt :: Variant.vint p.right_mode.toInt ::
        get_data rest) = p :: rest
      rw [decode_data, ih.2]
      congr 1
      cases p with
      | mk position left_tangent right_tangent left_mode right_mode =>
        cases left_mode <;> cases right_mode <;> rfl

/-- Claim C8: exporting any point store with get_data and importing the
resulting array with set_data (into any prior store) reproduces the
identical point sequence — same position, tangents and modes at every
index. -/
theorem C8_round_trip (s pts : List Point) :
    set_data s (get_data pts) = pts := by
  rw [set_data, if_pos]
  · exact (get_data_valid pts).2
  · refine ⟨?_, (get_data_valid pts).1⟩
    induction pts with
    | nil => rfl
    | cons p rest ih =>
      show (Variant.vvector2 p.position ::
        Variant.vfloat p.left_tangent :: Variant.vfloat p.right_tangent ::
        Variant.vint p.left_mode.toInt :: Variant.vint p.right_mode.toInt ::
        get_data rest).length % 5 = 0
      simp only [List.length_cons]
      omega

lemma decode_data_length : ∀ (l : List Variant), l.length % 5 = 0 →
    (decode_data l).length = l.length / 5
  | [], _ => rfl
  | _ :: _ :: _ :: _ :: _ :: rest, h => by
    rw [decode_data]
    simp only [List.length_cons] at h ⊢
    rw [decode_data_length rest (by omega)]
    omega
  | [_], h => absurd h (by simp)
  | [_, _], h => absurd h (by simp)
  | [_, _, _], h => absurd h (by simp)
  | [_, _, _, _], h => absurd h (by simp)

/-- Claim C7, counterexample: the 5-element input below is a single
well-formed tuple by the claim's criteria — position is a Vector2, both
tangent slots are numeric (is_num), both modes are INTs inside
[0, TANGENT_MODE_COUNT) — yet set_data rejects it (slot i+2 must be
specifically a FLOAT, and here it is an INT): starting from the empty
store, the store stays empty instead of being replaced by the one
decoded point. -/
theorem C7_counterexample :
    let input : List Variant := [Variant.vvector2 ((0 : ℚ), (0 : ℚ)),
      Variant.vint 0, Variant.vint 0, Variant.vint 0, Variant.vint 0]
    input.length % 5 = 0 ∧
    Variant.isVector2 (input.getD 0 .vnil) = true ∧
    Variant.is_num (input.getD 1 .vnil) = true ∧
    Variant.is_num (input.getD 2 .vnil) = true ∧
    Variant.isInt (input.getD 3 .vnil) = true ∧
    (0 ≤ Variant.toIntVal (input.getD 3 .vnil) ∧
      Variant.toIntVal (input.getD 3 .vnil) < TANGENT_MODE_COUNT) ∧
    Variant.isInt (input.getD 4 .vnil) = true ∧
    (0 ≤ Variant.toIntVal (input.getD 4 .vnil) ∧
      Variant.toIntVal (input.getD 4 .vnil) < TANGENT_MODE_COUNT) ∧
    set_data ([] : List Point) input = [] ∧
    (decode_data input).length = 1 ∧
    (([] : List Point).length ≠ (decode_data input).length) := by
  dsimp only
  refine ⟨by decide, rfl, rfl, rfl, rfl, by decide, rfl, by decide, ?_, rfl,
    by decide⟩
  rw [set_data, if_neg]
  rintro ⟨-, hv⟩
  exact absurd hv (by decide)

/-- Claim C7 as amended: set_data validates the whole input before any
mutation — if the element count is not a multiple of 5 or any tuple
fails validation, the store is left exactly as it was; if validation
succeeds the store is atomically replaced by the decoded sequence of
length count/5.  Tuple validation is, however, stricter than "tangents
numeric": slot i+2 (the right tangent) must be specifically a FLOAT
Variant, while slot i+1 (the left tangent) may be any numeric Variant —
an INT (which is numeric but not a FLOAT) in slot i+2 rejects the
import. -/
theorem C7_amended (pts : List Point) (input : List Variant) :
    (¬(input.length % 5 = 0 ∧ validate_data input = true) →
      set_data pts input = pts) ∧
    (input.length % 5 = 0 → validate_data input = true →
      set_data pts input = decode_data input ∧
      (decode_data input).length = input.length / 5) ∧
    (∀ t0 t1 t2 t3 t4 : Variant, valid_tuple t0 t1 t2 t3 t4 = true →
      Variant.isVector2 t0 = true ∧ Variant.is_num t1 = true ∧
      Variant.isFloat t2 = true ∧ Variant.isInt t3 = true ∧
      Variant.isInt t4 = true) ∧
    Variant.is_num (.vint 0) = true ∧ Variant.isFloat (.vint 0) = false := by
  refine ⟨?_, ?_, ?_, rfl, rfl⟩
  · intro h
    rw [set_data, if_neg h]
  · intro h1 h2
    rw [set_data, if_pos ⟨h1, h2⟩]
    exact ⟨rfl, decode_data_length input h1⟩
  · intro t0 t1 t2 t3 t4 h
    rw [valid_tuple] at h
    simp only [Bool.and_eq_true] at h
    tauto

/-- Witness for C7 at a fully valid single-tuple input. -/
theorem C7_amended_witness :
    set_data ([] : List Point) [Variant.vvector2 ((0 : ℚ), (0 : ℚ)),
        Variant.vfloat 0, Variant.vfloat 0, Variant.vint 0, Variant.vint 0] =
      decode_data [Variant.vvector2 ((0 : ℚ), (0 : ℚ)), Variant.vfloat 0,
        Variant.vfloat 0, Variant.vint 0, Variant.vint 0] ∧
    (decode_data [Variant.vvector2 ((0 : ℚ), (0 : ℚ)), Variant.vfloat 0,
        Variant.vfloat 0, Variant.vint 0, Variant.vint 0]).length =
      ([Variant.vvector2 ((0 : ℚ), (0 : ℚ)), Variant.vfloat 0,
        Variant.vfloat 0, Variant.vint 0, Variant.vint 0] : List Variant).length / 5 :=
  (C7_amended [] [Variant.vvector2 ((0 : ℚ), (0 : ℚ)), Variant.vfloat 0,
    Variant.vfloat 0, Variant.vint 0, Variant.vint 0]).2.1 (by decide) (by decide)

end BetterCurve
